import Mathlib

/-!
Verification of the ai-data-platform ingestion pipeline.

Shallow embedding of the core components:
- document state machine and repository (src/domains/documents/models.py,
  src/domains/documents/repository.py),
- broker-backed job queue (src/infra/queue/document_queue.py),
- ingest orchestration (src/application/documents/ingest.py),
- document processor (src/application/documents/process.py),
- worker loop (src/workers/document_worker.py).

Python exceptions are modelled with Except; a raised exception inside a
transaction block rolls the transaction back, so the embedded operations
return the unchanged state alongside the error.  Machine floats used for
timestamps are modelled as Int (only ordering and subtraction matter).
-/

namespace AiDataPlatform

/-! ## Data model (src/domains/documents/models.py) -/

inductive DocumentStatus
  | PENDING
  | PROCESSING
  | DONE
  | FAILED
deriving DecidableEq, Repr

/-- models.py line 15. -/
def MAX_RETRIES : Nat := 3

/-- The persisted document row (models.py lines 18-29); timestamps omitted,
`id` kept as an opaque string. -/
structure Document where
  id : String
  source : String
  status : DocumentStatus
  retry_count : Nat
  file_path : Option String
deriving DecidableEq, Repr

/-- Errors raised by the repository (src/domains/documents/errors.py). -/
inductive RepoError
  | documentNotFound
  | invalidStateTransition (current target : DocumentStatus)
  | maxRetriesExceeded (retry_count : Nat)
deriving DecidableEq, Repr

/-! ## DocumentRepository (src/domains/documents/repository.py)

Each mutating operation acts on the locked row; the surrounding transaction
rolls back on a raised error, so an `Except.error` result leaves the stored
document unchanged. -/

/-- repository.py lines 41-74 (`update_status`), given the locked row. -/
def update_status_doc (document : Document) (status : DocumentStatus) :
    Except RepoError Document :=
  let current := document.status
  let target := status
  -- Terminal states check (DONE is always terminal)
  if current = DocumentStatus.DONE then
    Except.error (RepoError.invalidStateTransition current target)
  -- FAILED can transition to PENDING (retry) if under max retries
  else if current = DocumentStatus.FAILED then
    if target = DocumentStatus.PENDING then
      if MAX_RETRIES ≤ document.retry_count then
        Except.error (RepoError.maxRetriesExceeded document.retry_count)
      else
        Except.ok { document with status := status }
    else
      Except.error (RepoError.invalidStateTransition current target)
  -- Invalid transitions
  else if current = DocumentStatus.PENDING ∧ target = DocumentStatus.DONE then
    Except.error (RepoError.invalidStateTransition current target)
  else
    Except.ok { document with status := status }

/-- repository.py lines 76-94 (`retry_document`), given the locked row. -/
def retry_document_doc (document : Document) : Except RepoError Document :=
  if document.status ≠ DocumentStatus.FAILED then
    Except.error
      (RepoError.invalidStateTransition document.status DocumentStatus.PENDING)
  else if MAX_RETRIES ≤ document.retry_count then
    Except.error (RepoError.maxRetriesExceeded document.retry_count)
  else
    Except.ok { document with
      retry_count := document.retry_count + 1
      status := DocumentStatus.PENDING }

/-- repository.py lines 96-104 (`update_file_path`), given the row. -/
def update_file_path_doc (document : Document) (file_path : String) : Document :=
  { document with file_path := some file_path }

/-- repository.py lines 106-114 (`clear_file_path`), given the row. -/
def clear_file_path_doc (document : Document) : Document :=
  { document with file_path := none }

/-- repository.py lines 16-21 (`create_document`): fresh PENDING row,
`retry_count = 0` (column default, models.py line 24). -/
def create_document (id source : String) : Document :=
  { id := id
    source := source
    status := DocumentStatus.PENDING
    retry_count := 0
    file_path := none }

/-! ## State-machine edges as the specification words them (spec section 4.2) -/

/-- Taken from the spec words, for comparison with `update_status_doc`:
"Legal edges (source → target): PENDING→PROCESSING, PROCESSING→DONE,
PROCESSING→FAILED, PENDING→FAILED, FAILED→PENDING". -/
def specLegalEdges : List (DocumentStatus × DocumentStatus) :=
  [ (DocumentStatus.PENDING, DocumentStatus.PROCESSING)
  , (DocumentStatus.PROCESSING, DocumentStatus.DONE)
  , (DocumentStatus.PROCESSING, DocumentStatus.FAILED)
  , (DocumentStatus.PENDING, DocumentStatus.FAILED)
  , (DocumentStatus.FAILED, DocumentStatus.PENDING) ]

/-- The transitions outside `specLegalEdges` that the code nevertheless
accepts (no check in repository.py lines 55-70 catches them). -/
def codeAcceptedExtraEdges : List (DocumentStatus × DocumentStatus) :=
  [ (DocumentStatus.PENDING, DocumentStatus.PENDING)
  , (DocumentStatus.PROCESSING, DocumentStatus.PROCESSING)
  , (DocumentStatus.PROCESSING, DocumentStatus.PENDING) ]

/-- A concrete PENDING document used for counterexamples. -/
def pendingDoc : Document :=
  { id := "d1"
    source := "s1"
    status := DocumentStatus.PENDING
    retry_count := 0
    file_path := none }

/-! ## Repository operation sequences (claim C9) -/

/-- The mutating repository operations on a single (locked) row, besides
`create_document`. -/
inductive RepoOp
  | updateStatus (target : DocumentStatus)
  | retryDocument
  | updateFilePath (file_path : String)
  | clearFilePath
deriving DecidableEq, Repr

/-- Effect of one repository operation on the stored row: a raised error
rolls the transaction back, leaving the row unchanged. -/
def applyRepoOp (document : Document) : RepoOp → Document
  | RepoOp.updateStatus t =>
    match update_status_doc document t with
    | Except.ok d => d
    | Except.error _ => document
  | RepoOp.retryDocument =>
    match retry_document_doc document with
    | Except.ok d => d
    | Except.error _ => document
  | RepoOp.updateFilePath p => update_file_path_doc document p
  | RepoOp.clearFilePath => clear_file_path_doc document

/-- Stored row after a sequence of repository operations. -/
def runRepoOps (document : Document) (ops : List RepoOp) : Document :=
  ops.foldl applyRepoOp document

/-! ## DocumentQueue (src/infra/queue/document_queue.py)

Redis lists are modelled as Lean lists whose head is the LEFT end of the
Redis list: RPUSH appends at the tail, LPUSH prepends at the head, LREM with
positive count removes the first occurrence scanning from the head, and
BRPOPLPUSH pops the tail of the source list and prepends it to the head of
the destination.  JSON payloads are modelled structurally: a payload that
parses to an object is a `QueueEntry` (whose `document_id` key may be
absent); any byte string that fails `json.loads` is `RawEntry.malformed`.
Machine-float timestamps are modelled as `Int`. -/

def rpush {α : Type} (l : List α) (x : α) : List α := l ++ [x]

def lpush {α : Type} (l : List α) (x : α) : List α := x :: l

/-- In-broker queue entry (spec section 3; document_queue.py).  All three
keys are optional in the JSON object; `enqueue` writes only `document_id`. -/
structure QueueEntry where
  document_id : Option String := none
  started_at : Option Int := none
  retry_count : Option Nat := none
deriving DecidableEq, Repr

/-- A raw list payload: either a parsed JSON object or undecodable bytes. -/
inductive RawEntry
  | wellFormed (entry : QueueEntry)
  | malformed (text : String)
deriving DecidableEq, Repr

/-- DLQ envelope written by `move_to_dlq` (document_queue.py lines 77-92). -/
structure DlqEntry where
  payload : RawEntry
  reason : String
  timestamp : Int
deriving DecidableEq, Repr

/-- Items on the dead-letter list: `move_to_dlq` pushes a JSON envelope,
while the worker (document_worker.py line 112) pushes the bare document id. -/
inductive DlqItem
  | envelope (e : DlqEntry)
  | bareId (id : String)
deriving DecidableEq, Repr

/-- The three broker lists (document_queue.py lines 7-9). -/
structure Broker where
  main : List RawEntry
  processing : List RawEntry
  dead_letter : List DlqItem
deriving DecidableEq, Repr

def Broker.empty : Broker := { main := [], processing := [], dead_letter := [] }

/-- Broker state from its three lists (helper for theorem statements). -/
def mkBroker (main processing : List RawEntry) (dead_letter : List DlqItem) :
    Broker :=
  { main := main, processing := processing, dead_letter := dead_letter }

/-- document_queue.py lines 18-21 (`enqueue`): the JSON object holding just
the document id, appended to the tail of MAIN. -/
def enqueue (b : Broker) (document_id : String) : Broker :=
  { b with
    main := rpush b.main (RawEntry.wellFormed { document_id := some document_id }) }

/-- document_queue.py lines 77-92 (`move_to_dlq`). -/
def move_to_dlq (b : Broker) (raw : RawEntry) (reason : String) (now : Int) :
    Broker :=
  { b with
    dead_letter := rpush b.dead_letter
      (DlqItem.envelope { payload := raw, reason := reason, timestamp := now }) }

/-- document_queue.py lines 23-59 (`dequeue`): BRPOPLPUSH from MAIN to
PROCESSING, then enrichment with `started_at = now` when absent; payloads
that fail to parse (bad JSON, missing or malformed `document_id`) go to the
DLQ.  Returns (document_id, raw payload now in PROCESSING) and the broker. -/
def dequeue (b : Broker) (now : Int) : (Option String × Option RawEntry) × Broker :=
  match b.main.getLast? with
  | none => ((none, none), b)   -- timeout: queue empty
  | some result =>
    let mainRest := b.main.dropLast
    let processing1 := lpush b.processing result
    match result with
    | RawEntry.wellFormed incoming =>
      match incoming.document_id with
      | some doc_id =>
        match incoming.started_at with
        | none =>
          let enriched : QueueEntry :=
            { document_id := some doc_id, started_at := some now }
          -- lrem(PROCESSING, 1, result) then lpush(PROCESSING, enriched)
          let processing2 :=
            lpush (processing1.erase result) (RawEntry.wellFormed enriched)
          ((some doc_id, some (RawEntry.wellFormed enriched)),
            { b with main := mainRest, processing := processing2 })
        | some _ =>
          ((some doc_id, some result),
            { b with main := mainRest, processing := processing1 })
      | none =>
        -- KeyError on missing document_id: move_to_dlq, then lrem
        let b2 := move_to_dlq { b with main := mainRest, processing := processing1 }
          result "Parse error" now
        ((none, none), { b2 with processing := b2.processing.erase result })
    | RawEntry.malformed _ =>
      let b2 := move_to_dlq { b with main := mainRest, processing := processing1 }
        result "Parse error" now
      ((none, none), { b2 with processing := b2.processing.erase result })

/-- document_queue.py lines 61-75 (`acknowledge`): LREM of the raw payload
from PROCESSING, with a fallback on the legacy format without started_at. -/
def acknowledge (b : Broker) (raw : RawEntry) : Broker :=
  if b.processing.contains raw then
    { b with processing := b.processing.erase raw }
  else
    match raw with
    | RawEntry.wellFormed e =>
      let legacy := RawEntry.wellFormed { document_id := e.document_id }
      if b.processing.contains legacy then
        { b with processing := b.processing.erase legacy }
      else b
    | RawEntry.malformed _ => b

/-- Counters returned by `requeue_stale_jobs`. -/
structure SweepCounters where
  requeued : Nat
  moved_to_dlq : Nat
  skipped : Nat
deriving DecidableEq, Repr

/-- One iteration of the loop body of `requeue_stale_jobs`
(document_queue.py lines 125-168) over the running broker and counters. -/
def requeueStep (now max_age_seconds : Int) (max_retries : Nat)
    (st : Broker × SweepCounters) (item : RawEntry) : Broker × SweepCounters :=
  let b := st.1
  let c := st.2
  match item with
  | RawEntry.malformed _ =>
    -- json.JSONDecodeError: lrem, then move_to_dlq (lines 164-168)
    let b1 := { b with processing := b.processing.erase item }
    (move_to_dlq b1 item "Malformed in processing queue" now,
      { c with moved_to_dlq := c.moved_to_dlq + 1 })
  | RawEntry.wellFormed e =>
    let retry_count := e.retry_count.getD 0
    match e.started_at with
    | none =>
      -- freshly dequeued, being enriched: skip
      (b, { c with skipped := c.skipped + 1 })
    | some started_at =>
      let age := now - started_at
      if age < max_age_seconds then
        (b, { c with skipped := c.skipped + 1 })
      else
        -- remove from processing queue (line 143)
        let b1 := { b with processing := b.processing.erase item }
        if max_retries ≤ retry_count then
          (move_to_dlq b1 item "Exceeded retries" now,
            { c with moved_to_dlq := c.moved_to_dlq + 1 })
        else
          match e.document_id with
          | some doc_id =>
            -- requeue with incremented retry count, started_at stripped
            let requeue_payload : QueueEntry :=
              { document_id := some doc_id
                started_at := none
                retry_count := some (retry_count + 1) }
            ({ b1 with main := lpush b1.main (RawEntry.wellFormed requeue_payload) },
              { c with requeued := c.requeued + 1 })
          | none =>
            -- KeyError at line 156: caught at 164, lrem again, move_to_dlq
            let b2 := { b1 with processing := b1.processing.erase item }
            (move_to_dlq b2 item "Malformed in processing queue" now,
              { c with moved_to_dlq := c.moved_to_dlq + 1 })

/-- document_queue.py lines 106-175 (`requeue_stale_jobs`): fold the loop
body over the LRANGE snapshot of PROCESSING. -/
def requeue_stale_jobs (b : Broker) (now max_age_seconds : Int)
    (max_retries : Nat) : Broker × SweepCounters :=
  b.processing.foldl (requeueStep now max_age_seconds max_retries)
    (b, { requeued := 0, moved_to_dlq := 0, skipped := 0 })

/-! ### Per-entry classification of the sweep, for the statements below -/

inductive SweepAction
  | skip
  | toDlq
  | requeue
deriving DecidableEq, Repr

/-- How one invocation of `requeue_stale_jobs` handles a given entry. -/
def classifyStale (now max_age_seconds : Int) (max_retries : Nat) :
    RawEntry → SweepAction
  | RawEntry.malformed _ => SweepAction.toDlq
  | RawEntry.wellFormed e =>
    match e.started_at with
    | none => SweepAction.skip
    | some started_at =>
      if now - started_at < max_age_seconds then SweepAction.skip
      else if max_retries ≤ e.retry_count.getD 0 then SweepAction.toDlq
      else
        match e.document_id with
        | some _ => SweepAction.requeue
        | none => SweepAction.toDlq

def sweepSkipB (now max_age_seconds : Int) (max_retries : Nat)
    (i : RawEntry) : Bool :=
  decide (classifyStale now max_age_seconds max_retries i = SweepAction.skip)

def sweepDlqB (now max_age_seconds : Int) (max_retries : Nat)
    (i : RawEntry) : Bool :=
  decide (classifyStale now max_age_seconds max_retries i = SweepAction.toDlq)

def sweepRequeueB (now max_age_seconds : Int) (max_retries : Nat)
    (i : RawEntry) : Bool :=
  decide (classifyStale now max_age_seconds max_retries i = SweepAction.requeue)

/-- The payload a requeued entry carries back to MAIN: retry_count
incremented, started_at stripped. -/
def requeuePayload : RawEntry → RawEntry
  | RawEntry.wellFormed e =>
    RawEntry.wellFormed
      { document_id := e.document_id
        started_at := none
        retry_count := some (e.retry_count.getD 0 + 1) }
  | RawEntry.malformed s => RawEntry.malformed s

/-- Reason attached to a DLQ envelope produced by the sweep. -/
def sweepDlqReason (max_retries : Nat) : RawEntry → String
  | RawEntry.malformed _ => "Malformed in processing queue"
  | RawEntry.wellFormed e =>
    if max_retries ≤ e.retry_count.getD 0 then "Exceeded retries"
    else "Malformed in processing queue"

/-- DLQ envelope produced by the sweep for a quarantined entry. -/
def sweepDlqItem (now : Int) (max_retries : Nat) (i : RawEntry) : DlqItem :=
  DlqItem.envelope
    { payload := i, reason := sweepDlqReason max_retries i, timestamp := now }

/-- A concrete PROCESSING snapshot exercising all sweep branches, for
witnesses: one entry mid-enrichment, one fresh, one retry-exhausted, one
stale-but-retryable. -/
def sweepDemoBroker : Broker :=
  { main := []
    processing :=
      [ RawEntry.wellFormed { document_id := some "a" }
      , RawEntry.wellFormed { document_id := some "b", started_at := some 900 }
      , RawEntry.wellFormed
          { document_id := some "c", started_at := some 0, retry_count := some 3 }
      , RawEntry.wellFormed
          { document_id := some "d", started_at := some 0, retry_count := some 1 } ]
    dead_letter := [] }

/-! ## ChunkingService (src/services/chunking.py)

Character-based chunking with the default chunk_size 500 and overlap 50,
so the loop advances by 450 characters per iteration.  The recursion is
structural on a fuel argument set to the character count, which is ample
since every iteration consumes a nonempty list and drops 450 ≥ 1
characters. -/

def chunkAux : Nat → List Char → List (List Char)
  | 0, _ => []
  | fuel + 1, cs =>
    if cs = [] then []
    else cs.take 500 :: chunkAux fuel (cs.drop 450)

/-- chunking.py lines 2-23 (`ChunkingService.chunk`) at the default
chunk_size and overlap. -/
def ChunkingService.chunk (text : String) : List String :=
  if text = "" then []
  else (chunkAux text.toList.length text.toList).map fun cs => String.mk cs

/-! ## DocumentProcessor (src/application/documents/process.py) -/

/-- Errors raised by the processor (domain errors plus the AppError wrapper
of process.py line 79). -/
inductive ProcError
  | documentNotFound
  | processingConflict (status : DocumentStatus)
  | repoError (e : RepoError)
  | appError
deriving DecidableEq, Repr

/-- Outcomes of the external collaborators during one processor run: the
file contents, and whether the file read, the batch embedding, the index
upsert and the finalize transaction's commit succeed.  The collaborators
are out of scope (spec section 1), so their outcomes are inputs here. -/
structure ProcEnv where
  readOk : Bool
  content : String
  embedOk : Bool
  upsertOk : Bool
  finalizeCommitOk : Bool
deriving DecidableEq, Repr

/-- Observable steps of one processor run, in order: the two transaction
commits and the external calls between them. -/
inductive ProcEvent
  | commitClaim
  | readFile
  | chunkText
  | embedBatch
  | upsertChunks
  | commitFinalize
  | deleteFile
deriving DecidableEq, Repr

/-- process.py lines 37-51: transaction 1 (claim).  Input is the locked row
(None if absent); on success the result carries the updated row and the
captured file_path; a raised error rolls the transaction back. -/
def processClaim (doc? : Option Document) :
    Except ProcError (Document × Option String) :=
  match doc? with
  | none => Except.error ProcError.documentNotFound
  | some doc =>
    if doc.status = DocumentStatus.DONE ∨ doc.status = DocumentStatus.PROCESSING then
      Except.error (ProcError.processingConflict doc.status)
    else
      match update_status_doc doc DocumentStatus.PROCESSING with
      | Except.error e => Except.error (ProcError.repoError e)
      | Except.ok doc2 => Except.ok (doc2, doc.file_path)

/-- process.py lines 64-79: transaction 2 (finalize) plus the surrounding
try/except.  On commit failure the transaction rolls back and the broad
except re-raises AppError after the best-effort file deletion; `hasFile`
records whether a file_path was captured in the claim phase. -/
def processFinalize (doc2 : Document) (hasFile : Bool) (env : ProcEnv)
    (trace : List ProcEvent) :
    Except ProcError Unit × Option Document × List ProcEvent :=
  if env.finalizeCommitOk then
    match update_status_doc doc2 DocumentStatus.DONE with
    | Except.ok doc3 =>
      (Except.ok (), some (clear_file_path_doc doc3),
        trace ++ [ProcEvent.commitFinalize]
          ++ (if hasFile then [ProcEvent.deleteFile] else []))
    | Except.error _ =>
      (Except.error ProcError.appError, some doc2,
        trace ++ (if hasFile then [ProcEvent.deleteFile] else []))
  else
    (Except.error ProcError.appError, some doc2,
      trace ++ (if hasFile then [ProcEvent.deleteFile] else []))

/-- process.py lines 29-79 (`DocumentProcessor.process`).  Returns the
outcome, the stored row afterwards, and the trace of commits and external
calls in order.  Failures of step 3 or 4 surface as AppError after the
best-effort file deletion (lines 74-79). -/
def process (doc? : Option Document) (env : ProcEnv) :
    Except ProcError Unit × Option Document × List ProcEvent :=
  match processClaim doc? with
  | Except.error e => (Except.error e, doc?, [])
  | Except.ok (doc2, file_path) =>
    match file_path with
    | some _ =>
      if env.readOk = false then
        (Except.error ProcError.appError, some doc2,
          [ProcEvent.commitClaim, ProcEvent.readFile, ProcEvent.deleteFile])
      else
        let chunks := ChunkingService.chunk env.content
        if chunks.isEmpty then
          processFinalize doc2 true env
            [ProcEvent.commitClaim, ProcEvent.readFile, ProcEvent.chunkText]
        else if env.embedOk = false then
          (Except.error ProcError.appError, some doc2,
            [ProcEvent.commitClaim, ProcEvent.readFile, ProcEvent.chunkText,
             ProcEvent.embedBatch, ProcEvent.deleteFile])
        else if env.upsertOk = false then
          (Except.error ProcError.appError, some doc2,
            [ProcEvent.commitClaim, ProcEvent.readFile, ProcEvent.chunkText,
             ProcEvent.embedBatch, ProcEvent.upsertChunks, ProcEvent.deleteFile])
        else
          processFinalize doc2 true env
            [ProcEvent.commitClaim, ProcEvent.readFile, ProcEvent.chunkText,
             ProcEvent.embedBatch, ProcEvent.upsertChunks]
    | none => processFinalize doc2 false env [ProcEvent.commitClaim]

/-- process.py lines 81-88 (`mark_failed`): one transaction that clears the
file path (when present) and transitions to FAILED; a raised error rolls
the whole transaction back. -/
def mark_failed (doc? : Option Document) :
    Except ProcError Unit × Option Document :=
  match doc? with
  | none =>
    (Except.error ProcError.documentNotFound, none)
  | some doc =>
    let doc1 := if doc.file_path.isSome then clear_file_path_doc doc else doc
    match update_status_doc doc1 DocumentStatus.FAILED with
    | Except.ok doc2 => (Except.ok (), some doc2)
    | Except.error e => (Except.error (ProcError.repoError e), some doc)

/-- document_worker.py lines 164-189 (`process_job`): run the processor; on
any raised error call mark_failed (best effort, errors swallowed) and
return False. -/
def process_job (doc? : Option Document) (env : ProcEnv) :
    Bool × Option Document :=
  match process doc? env with
  | (Except.ok _, store, _) => (true, store)
  | (Except.error _, store, _) => (false, (mark_failed store).2)

/-- An environment in which every collaborator succeeds. -/
def happyEnv : ProcEnv :=
  { readOk := true, content := "hello", embedOk := true, upsertOk := true,
    finalizeCommitOk := true }

/-- An environment in which only the finalize transaction's commit fails. -/
def finalizeFailEnv : ProcEnv :=
  { readOk := true, content := "hello", embedOk := true, upsertOk := true,
    finalizeCommitOk := false }

/-- A PENDING document with an uploaded file attached. -/
def uploadedDoc : Document := { pendingDoc with file_path := some "f" }

/-! ## IngestService (src/application/documents/ingest.py) -/

/-- settings.py line 45. -/
def QUEUE_MAX_LENGTH : Nat := 1000

inductive IngestError
  | queueFull
  | infraError
deriving DecidableEq, Repr

/-- Observable steps of one ingest run: transaction commits and the broker
write, in order. -/
inductive IngestEvent
  | commitCreate (id : String)
  | enqueueJob (id : String)
  | commitMarkFailed (id : String)
deriving DecidableEq, Repr

/-- repository.py lines 35-39 (`get_document_by_source`); the unique index
on source means `create_document` violates exactly when this is `some`. -/
def findBySource (docs : List Document) (source : String) : Option Document :=
  docs.find? (fun d => d.source == source)

/-- ingest.py lines 28-75 (`IngestService.ingest`).  `newId` is the
server-assigned id of a fresh row and `enqueueOk` the broker-write outcome
(the broker is external).  Returns the result, the stored rows, the broker
and the ordered trace of commits and broker writes. -/
def ingest (docs : List Document) (b : Broker) (newId source : String)
    (enqueueOk : Bool) :
    Except IngestError Document × List Document × Broker × List IngestEvent :=
  -- 1. backpressure check
  if QUEUE_MAX_LENGTH ≤ b.main.length then
    (Except.error IngestError.queueFull, docs, b, [])
  else
    match findBySource docs source with
    | some existing =>
      -- IntegrityError: roll back, fetch existing, return it; no enqueue
      (Except.ok existing, docs, b, [])
    | none =>
      let doc := create_document newId source
      let docs2 := docs ++ [doc]
      -- DB committed here
      if enqueueOk then
        (Except.ok doc, docs2, enqueue b newId,
          [IngestEvent.commitCreate newId, IngestEvent.enqueueJob newId])
      else
        -- enqueue failed: mark FAILED in a new transaction, raise InfraError
        let docFailed :=
          match update_status_doc doc DocumentStatus.FAILED with
          | Except.ok d2 => d2
          | Except.error _ => doc
        (Except.error IngestError.infraError, docs ++ [docFailed], b,
          [IngestEvent.commitCreate newId, IngestEvent.commitMarkFailed newId])

/-! ## DocumentWorker (src/workers/document_worker.py)

The worker imports DLQ_QUEUE, MAX_RETRIES and RETRY_KEY_PREFIX from the
queue module, where this revision does not define them.  Modelled from the
spec: the per-document retry counter lives at the broker key retry:doc_id,
the worker's DLQ list is the dead-letter list, and MAX_RETRIES is 3 (spec
sections 4.6 and 6; models.py carries the same value).

Python call semantics, needed for the DLQ path: a call passing a keyword
argument that names no parameter of the callee raises TypeError before the
callee's body runs. -/

/-- Parameter names of DocumentProcessor.mark_failed (process.py line 81),
besides self. -/
def mark_failed_param_names : List String := ["doc_id"]

/-- Keyword-argument names at the worker's mark_failed call
(document_worker.py lines 124-126). -/
def worker_mark_failed_kwargs : List String := ["reason"]

/-- A Python call binds iff every keyword argument names a parameter. -/
def callAccepted (params kwargs : List String) : Bool :=
  kwargs.all (fun k => params.contains k)

inductive WorkerError
  | typeError
  | processingFailed
deriving DecidableEq, Repr

/-- The state the worker's processing step touches: the document row, the
broker lists, and the per-document retry counter (0 when the key is
absent). -/
structure WorkerState where
  store : Option Document
  broker : Broker
  retryCounter : Nat
deriving DecidableEq, Repr

/-- Worker state from its components (helper for theorem statements). -/
def mkWorkerState (store : Option Document) (broker : Broker)
    (retryCounter : Nat) : WorkerState :=
  { store := store, broker := broker, retryCounter := retryCounter }

/-- document_worker.py lines 104-162 (`DocumentWorker.process`). -/
def workerProcess (s : WorkerState) (document_id : String) (raw : RawEntry)
    (env : ProcEnv) : Except WorkerError Unit × WorkerState :=
  if MAX_RETRIES ≤ s.retryCounter then
    -- lpush(DLQ_QUEUE, document_id)  (line 112)
    let s1 := { s with broker := { s.broker with
      dead_letter := lpush s.broker.dead_letter (DlqItem.bareId document_id) } }
    -- processor.mark_failed(UUID(document_id), reason=...)  (lines 124-126)
    if callAccepted mark_failed_param_names worker_mark_failed_kwargs then
      -- intended path: mark FAILED, emit metric, acknowledge, return
      let s2 := { s1 with store := (mark_failed s1.store).2 }
      (Except.ok (), { s2 with broker := acknowledge s2.broker raw })
    else
      -- TypeError: unexpected keyword argument; propagates to the loop
      (Except.error WorkerError.typeError, s1)
  else
    match process_job s.store env with
    | (true, store2) =>
      -- success: delete the retry counter  (line 150)
      (Except.ok (), { s with store := store2, retryCounter := 0 })
    | (false, store2) =>
      -- failure: increment the retry counter and re-raise  (lines 153-162)
      (Except.error WorkerError.processingFailed,
        { s with store := store2, retryCounter := s.retryCounter + 1 })

/-! ## Reachable store and index states (claim C8)

System-level transition system: each event is one application operation run
to completion against the store and the vector index, its effect taken
from the embedded operations above.  `produced` is a history variable
recording, for the run that completed each document, how many chunks its
content produced; it affects no behaviour and only lets the invariant
speak about "the content produced at least one chunk". -/

/-- The index points are keyed by (document_id, chunk_index)
(src/infra/vector/index.py lines 26-52). -/
structure World where
  docs : List Document
  index : List (String × Nat)
  produced : List (String × Nat)
deriving DecidableEq, Repr

def initialWorld : World := { docs := [], index := [], produced := [] }

/-- repository.py lines 23-27 (`get_document_by_id`). -/
def findById (docs : List Document) (id : String) : Option Document :=
  docs.find? (fun d => d.id == id)

/-- index.py lines 26-52 (`upsert_chunks`): no-op on an empty chunk list,
otherwise one point per chunk index, ids deterministic in
(document_id, chunk_index). -/
def upsert_chunks_points (document_id : String) (chunks : List String) :
    List (String × Nat) :=
  if chunks = [] then []
  else (List.range chunks.length).map (fun i => (document_id, i))

/-- Application-level events touching the store and the index. -/
inductive SysEvent
  | createDoc (id source : String)
  | compensateFailed (id : String)
  | upload (id path : String)
  | claim (id : String)
  | finalize (id content : String)
  | markFailed (id : String)
  | retry (id : String)
deriving DecidableEq, Repr

/-- Apply a transactional per-row mutation to the row with the given id;
`none` means the transaction raised and rolled back (row unchanged). -/
def updateById (docs : List Document) (id : String)
    (f : Document → Option Document) : List Document :=
  docs.map (fun d => if d.id = id then (f d).getD d else d)

def applySysEvent (w : World) : SysEvent → World
  | SysEvent.createDoc id source =>
    -- ingest.py line 48: fresh server-assigned id, unique source
    if findBySource w.docs source = none ∧ findById w.docs id = none then
      { w with docs := w.docs ++ [create_document id source] }
    else w
  | SysEvent.compensateFailed id =>
    -- ingest.py line 69
    let docs2 := updateById w.docs id
      (fun d => (update_status_doc d DocumentStatus.FAILED).toOption)
    { w with docs := docs2 }
  | SysEvent.upload id path =>
    -- upload.py lines 40-60: reject PROCESSING and DONE, then set the path
    let docs2 := updateById w.docs id (fun d =>
      if d.status = DocumentStatus.PROCESSING ∨ d.status = DocumentStatus.DONE then
        none
      else some (update_file_path_doc d path))
    { w with docs := docs2 }
  | SysEvent.claim id =>
    -- process.py lines 37-51
    let docs2 := updateById w.docs id (fun d =>
      if d.status = DocumentStatus.DONE ∨ d.status = DocumentStatus.PROCESSING then
        none
      else (update_status_doc d DocumentStatus.PROCESSING).toOption)
    { w with docs := docs2 }
  | SysEvent.finalize id content =>
    -- process.py lines 54-68: chunks from the captured file's content,
    -- upsert before the DONE transition, file_path cleared with it
    match findById w.docs id with
    | some d =>
      if d.status = DocumentStatus.PROCESSING then
        let chunks :=
          if d.file_path.isSome then ChunkingService.chunk content else []
        let docs2 := updateById w.docs id (fun d2 =>
          match update_status_doc d2 DocumentStatus.DONE with
          | Except.ok d3 => some (clear_file_path_doc d3)
          | Except.error _ => none)
        { docs := docs2
          index := w.index ++ upsert_chunks_points id chunks
          produced := (id, chunks.length) :: w.produced }
      else w
    | none => w
  | SysEvent.markFailed id =>
    -- process.py lines 81-88
    let docs2 := updateById w.docs id (fun d =>
      let d1 := if d.file_path.isSome then clear_file_path_doc d else d
      (update_status_doc d1 DocumentStatus.FAILED).toOption)
    { w with docs := docs2 }
  | SysEvent.retry id =>
    -- repository.py lines 76-94
    let docs2 := updateById w.docs id (fun d => (retry_document_doc d).toOption)
    { w with docs := docs2 }

def runSysEvents (w : World) (es : List SysEvent) : World :=
  es.foldl applySysEvent w

/-- The chunk count recorded for a document's completing run. -/
def lookupProduced (produced : List (String × Nat)) (id : String) : Option Nat :=
  (produced.find? (fun p => p.1 == id)).map Prod.snd

/-- Claim C8's invariant: DONE documents have no file path and, when their
completing run produced chunks, at least one index point for their id. -/
def DoneInvariant (w : World) : Prop :=
  ∀ d ∈ w.docs, d.status = DocumentStatus.DONE →
    d.file_path = none
    ∧ ∀ k, lookupProduced w.produced d.id = some k → 0 < k →
        ∃ i, (d.id, i) ∈ w.index

/-- A concrete happy-path run: ingest, upload, claim, finalize. -/
def demoEvents : List SysEvent :=
  [ SysEvent.createDoc "d1" "s1"
  , SysEvent.upload "d1" "p"
  , SysEvent.claim "d1"
  , SysEvent.finalize "d1" "hello" ]

/-- Closed-form restatement of `update_status_doc`, used by several proofs. -/
theorem update_status_doc_spec (d : Document) (t : DocumentStatus) :
    update_status_doc d t =
      if d.status = DocumentStatus.DONE
         ∨ (d.status = DocumentStatus.FAILED ∧ t ≠ DocumentStatus.PENDING)
         ∨ (d.status = DocumentStatus.PENDING ∧ t = DocumentStatus.DONE) then
        Except.error (RepoError.invalidStateTransition d.status t)
      else if d.status = DocumentStatus.FAILED ∧ MAX_RETRIES ≤ d.retry_count then
        Except.error (RepoError.maxRetriesExceeded d.retry_count)
      else
        Except.ok { d with status := t } := by
  obtain ⟨i, s, st, rc, fp⟩ := d
  cases st <;> cases t <;> simp [update_status_doc]

theorem update_status_doc_ok_retry_count (d : Document) (t : DocumentStatus)
    (d2 : Document) (h : update_status_doc d t = Except.ok d2) :
    d2.retry_count = d.retry_count := by
  rw [update_status_doc_spec] at h
  split at h
  · cases h
  · split at h
    · cases h
    · cases h
      rfl

theorem retry_document_doc_ok (d d2 : Document)
    (h : retry_document_doc d = Except.ok d2) :
    d2.retry_count = d.retry_count + 1 ∧ d.retry_count < MAX_RETRIES := by
  unfold retry_document_doc at h
  split at h
  · cases h
  · rename_i hle
    split at h
    · cases h
    · cases h
      exact ⟨rfl, by omega⟩

theorem applyRepoOp_retry_le (d : Document) (op : RepoOp)
    (h : d.retry_count ≤ MAX_RETRIES) :
    (applyRepoOp d op).retry_count ≤ MAX_RETRIES := by
  cases op with
  | updateStatus t =>
    simp only [applyRepoOp]
    cases hm : update_status_doc d t with
    | ok d2 => simpa [update_status_doc_ok_retry_count d t d2 hm] using h
    | error e => simpa using h
  | retryDocument =>
    simp only [applyRepoOp]
    cases hm : retry_document_doc d with
    | ok d2 =>
      have h2 := retry_document_doc_ok d d2 hm
      simp only []
      omega
    | error e => simpa using h
  | updateFilePath p => simpa [applyRepoOp, update_file_path_doc] using h
  | clearFilePath => simpa [applyRepoOp, clear_file_path_doc] using h

theorem runRepoOps_retry_le (ops : List RepoOp) (d : Document)
    (h : d.retry_count ≤ MAX_RETRIES) :
    (runRepoOps d ops).retry_count ≤ MAX_RETRIES := by
  induction ops generalizing d with
  | nil => exact h
  | cons op ops ih => exact ih (applyRepoOp d op) (applyRepoOp_retry_le d op h)

/-- One sweep iteration, characterized through the per-entry classification:
counters, MAIN and DLQ effects, plus the PROCESSING effect (one LREM for
ordinary removals, a second no-op LREM on the KeyError path). -/
theorem requeueStep_counts (now max_age_seconds : Int) (max_retries : Nat)
    (b : Broker) (c : SweepCounters) (x : RawEntry) :
    ((requeueStep now max_age_seconds max_retries (b, c) x).2 =
      match classifyStale now max_age_seconds max_retries x with
      | SweepAction.skip => { c with skipped := c.skipped + 1 }
      | SweepAction.toDlq => { c with moved_to_dlq := c.moved_to_dlq + 1 }
      | SweepAction.requeue => { c with requeued := c.requeued + 1 })
  ∧ ((requeueStep now max_age_seconds max_retries (b, c) x).1.main =
      match classifyStale now max_age_seconds max_retries x with
      | SweepAction.requeue => lpush b.main (requeuePayload x)
      | _ => b.main)
  ∧ ((requeueStep now max_age_seconds max_retries (b, c) x).1.dead_letter =
      match classifyStale now max_age_seconds max_retries x with
      | SweepAction.toDlq => rpush b.dead_letter (sweepDlqItem now max_retries x)
      | _ => b.dead_letter)
  ∧ (if classifyStale now max_age_seconds max_retries x = SweepAction.skip then
      (requeueStep now max_age_seconds max_retries (b, c) x).1.processing
        = b.processing
    else
      (requeueStep now max_age_seconds max_retries (b, c) x).1.processing
        = b.processing.erase x
      ∨ (requeueStep now max_age_seconds max_retries (b, c) x).1.processing
        = (b.processing.erase x).erase x) := by
  cases x with
  | malformed s =>
    exact ⟨rfl, rfl, rfl, by simp [requeueStep, classifyStale, move_to_dlq]⟩
  | wellFormed e =>
    obtain ⟨di, sa, rc⟩ := e
    cases sa with
    | none => exact ⟨rfl, rfl, rfl, by simp [requeueStep, classifyStale]⟩
    | some t0 =>
      by_cases hage : now - t0 < max_age_seconds
      · refine ⟨?_, ?_, ?_, ?_⟩ <;>
          simp [requeueStep, classifyStale, hage]
      · by_cases hrc : max_retries ≤ Option.getD rc 0
        · refine ⟨?_, ?_, ?_, ?_⟩ <;>
            simp [requeueStep, classifyStale, sweepDlqItem, sweepDlqReason,
              move_to_dlq, rpush, hage, hrc]
        · cases di with
          | some d =>
            refine ⟨?_, ?_, ?_, ?_⟩ <;>
              simp [requeueStep, classifyStale, requeuePayload, lpush, hage, hrc]
          | none =>
            refine ⟨?_, ?_, ?_, ?_⟩ <;>
              simp [requeueStep, classifyStale, sweepDlqItem, sweepDlqReason,
                move_to_dlq, rpush, hage, hrc]

/-- Folding the sweep body over a snapshot: counters count the per-entry
classifications, MAIN gains exactly the requeue payloads (newest first), the
DLQ gains exactly the quarantined envelopes in order. -/
theorem sweepFold_spec (now max_age_seconds : Int) (max_retries : Nat)
    (items : List RawEntry) :
    ∀ (b : Broker) (c : SweepCounters),
    ((items.foldl (requeueStep now max_age_seconds max_retries) (b, c)).2.requeued
        = c.requeued + items.countP (sweepRequeueB now max_age_seconds max_retries))
  ∧ ((items.foldl (requeueStep now max_age_seconds max_retries) (b, c)).2.moved_to_dlq
        = c.moved_to_dlq + items.countP (sweepDlqB now max_age_seconds max_retries))
  ∧ ((items.foldl (requeueStep now max_age_seconds max_retries) (b, c)).2.skipped
        = c.skipped + items.countP (sweepSkipB now max_age_seconds max_retries))
  ∧ ((items.foldl (requeueStep now max_age_seconds max_retries) (b, c)).1.main
        = ((items.filter (sweepRequeueB now max_age_seconds max_retries)).map
            requeuePayload).reverse ++ b.main)
  ∧ ((items.foldl (requeueStep now max_age_seconds max_retries) (b, c)).1.dead_letter
        = b.dead_letter
          ++ (items.filter (sweepDlqB now max_age_seconds max_retries)).map
            (sweepDlqItem now max_retries)) := by
  induction items with
  | nil => intro b c; simp
  | cons x rest ih =>
    intro b c
    obtain ⟨hc, hm, hd, _⟩ := requeueStep_counts now max_age_seconds max_retries b c x
    obtain ⟨ih1, ih2, ih3, ih4, ih5⟩ :=
      ih (requeueStep now max_age_seconds max_retries (b, c) x).1
        (requeueStep now max_age_seconds max_retries (b, c) x).2
    simp only [Prod.mk.eta] at ih1 ih2 ih3 ih4 ih5
    cases hcl : classifyStale now max_age_seconds max_retries x with
    | skip =>
      rw [hcl] at hc hm hd
      refine ⟨?_, ?_, ?_, ?_, ?_⟩ <;>
        simp [List.foldl_cons, ih1, ih2, ih3, ih4, ih5, hc, hm, hd,
          List.countP_cons, List.filter_cons,
          sweepRequeueB, sweepDlqB, sweepSkipB, hcl] <;> omega
    | toDlq =>
      rw [hcl] at hc hm hd
      refine ⟨?_, ?_, ?_, ?_, ?_⟩ <;>
        simp [List.foldl_cons, ih1, ih2, ih3, ih4, ih5, hc, hm, hd,
          List.countP_cons, List.filter_cons, rpush, List.append_assoc,
          sweepRequeueB, sweepDlqB, sweepSkipB, hcl] <;> omega
    | requeue =>
      rw [hcl] at hc hm hd
      refine ⟨?_, ?_, ?_, ?_, ?_⟩ <;>
        simp [List.foldl_cons, ih1, ih2, ih3, ih4, ih5, hc, hm, hd,
          List.countP_cons, List.filter_cons, lpush, List.reverse_cons,
          List.append_assoc, sweepRequeueB, sweepDlqB, sweepSkipB, hcl] <;> omega

/-- Folding the sweep body over the PROCESSING snapshot removes exactly the
non-skipped entries, provided the snapshot has no duplicate payloads. -/
theorem sweepFold_processing (now max_age_seconds : Int) (max_retries : Nat)
    (items : List RawEntry) :
    ∀ (pre : List RawEntry) (b : Broker) (c : SweepCounters),
    b.processing = pre ++ items → (pre ++ items).Nodup →
    (items.foldl (requeueStep now max_age_seconds max_retries) (b, c)).1.processing
      = pre ++ items.filter (sweepSkipB now max_age_seconds max_retries) := by
  induction items with
  | nil =>
    intro pre b c hb _
    simpa using hb
  | cons x rest ih =>
    intro pre b c hb hnd
    have hxpre : x ∉ pre := fun hx =>
      List.disjoint_of_nodup_append hnd hx (List.mem_cons_self x rest)
    have hxrest : x ∉ rest :=
      (List.nodup_cons.mp (List.nodup_append.mp hnd).2.1).1
    have herase : b.processing.erase x = pre ++ rest := by
      rw [hb, List.erase_append_right (x :: rest) hxpre, List.erase_cons_head]
    have herase2 : (b.processing.erase x).erase x = pre ++ rest := by
      rw [herase]
      exact List.erase_of_not_mem (by simp [hxpre, hxrest])
    obtain ⟨_, _, _, hp⟩ := requeueStep_counts now max_age_seconds max_retries b c x
    obtain ih2 :=
      ih pre (requeueStep now max_age_seconds max_retries (b, c) x).1
        (requeueStep now max_age_seconds max_retries (b, c) x).2
    simp only [Prod.mk.eta] at ih2
    by_cases hcl : classifyStale now max_age_seconds max_retries x = SweepAction.skip
    · rw [if_pos hcl] at hp
      have hnd2 : ((pre ++ [x]) ++ rest).Nodup := by
        simpa [List.append_assoc] using hnd
      obtain ih3 :=
        ih (pre ++ [x]) (requeueStep now max_age_seconds max_retries (b, c) x).1
          (requeueStep now max_age_seconds max_retries (b, c) x).2
      simp only [Prod.mk.eta] at ih3
      have := ih3 (by rw [hp, hb]; simp [List.append_assoc]) hnd2
      rw [List.foldl_cons, this, List.filter_cons]
      have hx : sweepSkipB now max_age_seconds max_retries x = true := by
        simp [sweepSkipB, hcl]
      simp [hx, List.append_assoc]
    · rw [if_neg hcl] at hp
      have hnd2 : (pre ++ rest).Nodup :=
        List.Nodup.sublist
          (List.Sublist.append_left (List.sublist_cons_self x rest) pre) hnd
      have hp2 : (requeueStep now max_age_seconds max_retries (b, c) x).1.processing
          = pre ++ rest := by
        rcases hp with hp | hp
        · rw [hp, herase]
        · rw [hp, herase2]
      have := ih2 hp2 hnd2
      rw [List.foldl_cons, this, List.filter_cons]
      have hx : sweepSkipB now max_age_seconds max_retries x = false := by
        simp [sweepSkipB, hcl]
      simp [hx]

end AiDataPlatform

namespace AiDataPlatform

/-! ## Claim theorems for C1 and C9 -/

/-- Claim C1 counterexample: the pairs (PENDING, PENDING),
(PROCESSING, PROCESSING) and (PROCESSING, PENDING) are not among the legal
edges, yet `update_status` accepts all three and writes the target status
instead of raising InvalidStateTransition. -/
theorem update_status_accepts_illegal_self_and_backward_edges :
    (DocumentStatus.PENDING, DocumentStatus.PENDING) ∉ specLegalEdges
  ∧ (DocumentStatus.PROCESSING, DocumentStatus.PROCESSING) ∉ specLegalEdges
  ∧ (DocumentStatus.PROCESSING, DocumentStatus.PENDING) ∉ specLegalEdges
  ∧ update_status_doc pendingDoc DocumentStatus.PENDING = Except.ok pendingDoc
  ∧ update_status_doc { pendingDoc with status := DocumentStatus.PROCESSING }
      DocumentStatus.PROCESSING
      = Except.ok { pendingDoc with status := DocumentStatus.PROCESSING }
  ∧ update_status_doc { pendingDoc with status := DocumentStatus.PROCESSING }
      DocumentStatus.PENDING
      = Except.ok pendingDoc := by
  refine ⟨by decide, by decide, by decide, rfl, rfl, rfl⟩

/-- Claim C1 (amended): `update_status` raises InvalidStateTransition exactly
when (current, target) is neither a spec-legal edge nor one of the three
edges PENDING→PENDING, PROCESSING→PROCESSING, PROCESSING→PENDING that the
code additionally accepts; every accepted edge writes the target status,
except FAILED→PENDING with retry_count ≥ MAX_RETRIES, which raises
MaxRetriesExceeded instead. -/
theorem update_status_state_machine (d : Document) (t : DocumentStatus) :
    (update_status_doc d t
        = Except.error (RepoError.invalidStateTransition d.status t)
      ↔ ((d.status, t) ∉ specLegalEdges ∧ (d.status, t) ∉ codeAcceptedExtraEdges))
  ∧ (((d.status, t) ∈ specLegalEdges ∨ (d.status, t) ∈ codeAcceptedExtraEdges) →
      (if d.status = DocumentStatus.FAILED ∧ MAX_RETRIES ≤ d.retry_count then
        update_status_doc d t = Except.error (RepoError.maxRetriesExceeded d.retry_count)
      else
        update_status_doc d t = Except.ok { d with status := t })) := by
  obtain ⟨i, s, st, rc, fp⟩ := d
  cases st <;> cases t <;>
    simp [update_status_doc, specLegalEdges, codeAcceptedExtraEdges, MAX_RETRIES] <;>
    (repeat' split) <;> simp_all

/-- Claim C1 amended-theorem witness: instantiation at the concrete
PENDING→PROCESSING edge. -/
theorem update_status_state_machine_witness :
    update_status_doc pendingDoc DocumentStatus.PROCESSING
      = Except.ok { pendingDoc with status := DocumentStatus.PROCESSING } := by
  have h := (update_status_state_machine pendingDoc DocumentStatus.PROCESSING).2
    (Or.inl (by decide))
  rw [if_neg (by decide)] at h
  exact h

/-- Claim C9: `retry_count` stays ≤ MAX_RETRIES under every sequence of
repository operations: `create_document` starts it at 0, `update_status`,
`update_file_path` and `clear_file_path` never change it, `retry_document`
is the only incrementing operation and only fires from FAILED below the
bound, and once retry_count ≥ MAX_RETRIES a retry raises
MaxRetriesExceeded. -/
theorem retry_count_bounded (id source : String) (ops : List RepoOp)
    (d : Document) (k : Nat) :
    (create_document id source).retry_count = 0
  ∧ (runRepoOps (create_document id source) ops).retry_count ≤ MAX_RETRIES
  ∧ ((applyRepoOp d RepoOp.retryDocument).retry_count = d.retry_count
      ∨ (d.status = DocumentStatus.FAILED ∧ d.retry_count < MAX_RETRIES
          ∧ (applyRepoOp d RepoOp.retryDocument).retry_count = d.retry_count + 1))
  ∧ (∀ t, (applyRepoOp d (RepoOp.updateStatus t)).retry_count = d.retry_count)
  ∧ (∀ p, (applyRepoOp d (RepoOp.updateFilePath p)).retry_count = d.retry_count)
  ∧ (applyRepoOp d RepoOp.clearFilePath).retry_count = d.retry_count
  ∧ retry_document_doc
      { d with status := DocumentStatus.FAILED, retry_count := MAX_RETRIES + k }
      = Except.error (RepoError.maxRetriesExceeded (MAX_RETRIES + k)) := by
  refine ⟨rfl, runRepoOps_retry_le ops _ (by simp [create_document]), ?_, ?_, ?_, ?_, ?_⟩
  · by_cases hst : d.status = DocumentStatus.FAILED
    · by_cases hrc : d.retry_count < MAX_RETRIES
      · exact Or.inr ⟨hst, hrc, by
          simp [applyRepoOp, retry_document_doc, hst, Nat.not_le.mpr hrc]⟩
      · exact Or.inl (by
          simp [applyRepoOp, retry_document_doc, hst, Nat.not_lt.mp hrc])
    · exact Or.inl (by simp [applyRepoOp, retry_document_doc, hst])
  · intro t
    simp only [applyRepoOp]
    cases hm : update_status_doc d t with
    | ok d2 => simp [update_status_doc_ok_retry_count d t d2 hm]
    | error e => simp
  · intro p
    simp [applyRepoOp, update_file_path_doc]
  · simp [applyRepoOp, clear_file_path_doc]
  · simp [retry_document_doc, Nat.le_add_right]

/-- Claim C2 counterexample: after enqueueing two distinct ids "a" then "b"
into an empty MAIN, the first dequeue returns "b" — the most recently
enqueued id — not "a" as the claim states. -/
theorem dequeue_returns_newest_first :
    ((dequeue (enqueue (enqueue Broker.empty "a") "b") 0).1.1 = some "b")
  ∧ ((dequeue (enqueue (enqueue Broker.empty "a") "b") 0).1.1 ≠ some "a") :=
  ⟨rfl, by decide⟩

/-- Claim C2 (amended): enqueue appends to the tail of MAIN, but dequeue
(BRPOPLPUSH over an RPUSH-fed list) removes the TAIL of MAIN, i.e. the most
recently enqueued entry, so MAIN behaves as a LIFO stack under a single
producer: after two enqueues of ids a then c into an empty MAIN, the first
dequeue returns c. -/
theorem enqueue_tail_dequeue_tail (l p : List RawEntry) (dl : List DlqItem)
    (e : QueueEntry) (a c : String) (now : Int) :
    ((enqueue (mkBroker l p dl) a).main
      = l ++ [RawEntry.wellFormed { document_id := some a }])
  ∧ ((dequeue (mkBroker (rpush l (RawEntry.wellFormed e)) p dl) now).1.1
      = e.document_id)
  ∧ ((dequeue (mkBroker (rpush l (RawEntry.wellFormed e)) p dl) now).2.main = l)
  ∧ ((dequeue (enqueue (enqueue Broker.empty a) c) now).1.1 = some c) := by
  refine ⟨by simp [enqueue, rpush, mkBroker], ?_, ?_, rfl⟩ <;>
  · obtain ⟨di, sa, rc⟩ := e
    cases di <;> cases sa <;>
      simp [dequeue, rpush, move_to_dlq, lpush, mkBroker,
        List.getLast?_concat, List.dropLast_concat]

/-- Claim C5: one invocation of requeue_stale over the PROCESSING snapshot
skips each entry without started_at or younger than max_age, quarantines
each stale entry with retry_count ≥ max_retries to the DLQ, and pushes each
other stale entry to the head of MAIN with retry_count incremented and
started_at stripped; the returned counters equal the number of entries
handled in each way, and (absent duplicate payloads) exactly the
non-skipped entries leave PROCESSING. -/
theorem requeue_stale_spec (b : Broker) (now max_age_seconds : Int)
    (max_retries : Nat) :
    ((requeue_stale_jobs b now max_age_seconds max_retries).2.requeued
        = b.processing.countP (sweepRequeueB now max_age_seconds max_retries))
  ∧ ((requeue_stale_jobs b now max_age_seconds max_retries).2.moved_to_dlq
        = b.processing.countP (sweepDlqB now max_age_seconds max_retries))
  ∧ ((requeue_stale_jobs b now max_age_seconds max_retries).2.skipped
        = b.processing.countP (sweepSkipB now max_age_seconds max_retries))
  ∧ ((requeue_stale_jobs b now max_age_seconds max_retries).1.main
        = ((b.processing.filter (sweepRequeueB now max_age_seconds max_retries)).map
            requeuePayload).reverse ++ b.main)
  ∧ ((requeue_stale_jobs b now max_age_seconds max_retries).1.dead_letter
        = b.dead_letter
          ++ (b.processing.filter (sweepDlqB now max_age_seconds max_retries)).map
            (sweepDlqItem now max_retries))
  ∧ (b.processing.Nodup →
      (requeue_stale_jobs b now max_age_seconds max_retries).1.processing
        = b.processing.filter (sweepSkipB now max_age_seconds max_retries)) := by
  obtain ⟨h1, h2, h3, h4, h5⟩ :=
    sweepFold_spec now max_age_seconds max_retries b.processing b
      { requeued := 0, moved_to_dlq := 0, skipped := 0 }
  refine ⟨by simpa [requeue_stale_jobs] using h1,
    by simpa [requeue_stale_jobs] using h2,
    by simpa [requeue_stale_jobs] using h3,
    by simpa [requeue_stale_jobs] using h4,
    by simpa [requeue_stale_jobs] using h5, ?_⟩
  intro hnd
  simpa [requeue_stale_jobs] using
    sweepFold_processing now max_age_seconds max_retries b.processing []
      b { requeued := 0, moved_to_dlq := 0, skipped := 0 } (by simp)
      (by simpa using hnd)

/-- Claim C5 witness: the sweep applied at time 1000 with max_age 300 and
max_retries 3 to a concrete snapshot exercising all branches. -/
theorem requeue_stale_spec_witness :
    (requeue_stale_jobs sweepDemoBroker 1000 300 3).1.processing
      = sweepDemoBroker.processing.filter (sweepSkipB 1000 300 3) :=
  (requeue_stale_spec sweepDemoBroker 1000 300 3).2.2.2.2.2 (by decide)

/-- Claim C6: dequeueing a requeued MAIN entry of the form
(document_id, retry_count) — as produced by the sweep, which strips
started_at — replaces it in PROCESSING with an enriched entry holding only
document_id and started_at: the retry_count is discarded, so a later sweep
reads retry_count as 0 and, once the entry is stale, requeues it (with
retry_count restarting at 1) rather than ever taking the
DLQ-after-max-retries branch, for any positive max_retries. -/
theorem dequeue_discards_retry_count (l p : List RawEntry) (dl : List DlqItem)
    (d : String) (rc : Nat) (now now2 max_age_seconds : Int) (max_retries : Nat) :
    ((dequeue (mkBroker (rpush l (RawEntry.wellFormed
          { document_id := some d, started_at := none, retry_count := some rc })) p dl)
        now).1.2
      = some (RawEntry.wellFormed
          { document_id := some d, started_at := some now, retry_count := none }))
  ∧ ((dequeue (mkBroker (rpush l (RawEntry.wellFormed
          { document_id := some d, started_at := none, retry_count := some rc })) p dl)
        now).2.processing.head?
      = some (RawEntry.wellFormed
          { document_id := some d, started_at := some now, retry_count := none }))
  ∧ (1 ≤ max_retries → max_age_seconds ≤ now2 - now →
      classifyStale now2 max_age_seconds max_retries
          (RawEntry.wellFormed
            { document_id := some d, started_at := some now, retry_count := none })
        = SweepAction.requeue
      ∧ requeuePayload
          (RawEntry.wellFormed
            { document_id := some d, started_at := some now, retry_count := none })
        = RawEntry.wellFormed
            { document_id := some d, started_at := none, retry_count := some 1 }
      ∧ (requeue_stale_jobs
            (mkBroker [] [RawEntry.wellFormed
              { document_id := some d, started_at := some now, retry_count := none }] [])
            now2 max_age_seconds max_retries).2.moved_to_dlq = 0
      ∧ (requeue_stale_jobs
            (mkBroker [] [RawEntry.wellFormed
              { document_id := some d, started_at := some now, retry_count := none }] [])
            now2 max_age_seconds max_retries).2.requeued = 1) := by
  refine ⟨?_, ?_, ?_⟩
  · simp [dequeue, rpush, lpush, mkBroker,
      List.getLast?_concat, List.dropLast_concat]
  · simp [dequeue, rpush, lpush, mkBroker,
      List.getLast?_concat, List.dropLast_concat]
  · intro h1 h2
    have hage : ¬(now2 - now < max_age_seconds) := by omega
    have hrc : ¬(max_retries ≤ (0 : Nat)) := by omega
    refine ⟨by simp [classifyStale, hage, hrc], rfl, ?_, ?_⟩ <;>
      simp [requeue_stale_jobs, requeueStep, mkBroker, hage, hrc]

/-- Claim C6 witness: concrete instantiation — entry enriched at time 0,
swept at time 400 with max_age 300 and max_retries 3. -/
theorem dequeue_discards_retry_count_witness :
    classifyStale 400 300 3
        (RawEntry.wellFormed
          { document_id := some "d1", started_at := some 0, retry_count := none })
      = SweepAction.requeue
  ∧ (requeue_stale_jobs
        (mkBroker [] [RawEntry.wellFormed
          { document_id := some "d1", started_at := some 0, retry_count := none }] [])
        400 300 3).2.moved_to_dlq = 0 := by
  obtain ⟨-, -, h⟩ := dequeue_discards_retry_count [] [] [] "d1" 5 0 400 300 3
  exact ⟨(h (by decide) (by decide)).1, (h (by decide) (by decide)).2.2.1⟩

theorem toOption_eq_some {e : Type} {a : Type} (x : Except e a) (v : a)
    (h : x.toOption = some v) : x = Except.ok v := by
  cases x <;> simp [Except.toOption] at h <;> simp [h]

theorem update_status_doc_ok_shape (d : Document) (t : DocumentStatus)
    (d2 : Document) (h : update_status_doc d t = Except.ok d2) :
    d2 = { d with status := t } := by
  rw [update_status_doc_spec] at h
  split at h
  · cases h
  · split at h
    · cases h
    · cases h
      rfl

theorem retry_document_doc_ok_shape (d d2 : Document)
    (h : retry_document_doc d = Except.ok d2) :
    d2 = { d with
      retry_count := d.retry_count + 1, status := DocumentStatus.PENDING } := by
  unfold retry_document_doc at h
  split at h
  · cases h
  · split at h
    · cases h
    · cases h
      rfl

theorem mem_updateById (docs : List Document) (id : String)
    (f : Document → Option Document) (d2 : Document)
    (h : d2 ∈ updateById docs id f) :
    d2 ∈ docs ∨ ∃ d ∈ docs, d.id = id ∧ f d = some d2 := by
  unfold updateById at h
  obtain ⟨d, hd, hmap⟩ := List.mem_map.mp h
  by_cases hid : d.id = id
  · cases hf : f d with
    | none =>
      left
      rw [← hmap]
      simpa [hid, hf] using hd
    | some d3 =>
      right
      exact ⟨d, hd, hid, by rw [hf, ← hmap]; simp [hid, hf]⟩
  · left
    rw [← hmap]
    simpa [hid] using hd

/-- Events that never turn a row into DONE preserve the invariant when they
leave index and produced unchanged. -/
theorem doneInvariant_updateById (w : World) (id : String)
    (f : Document → Option Document)
    (h : DoneInvariant w)
    (hf : ∀ d d2, f d = some d2 → d2.status ≠ DocumentStatus.DONE) :
    DoneInvariant { w with docs := updateById w.docs id f } := by
  intro d2 hd2 hdone
  rcases mem_updateById w.docs id f d2 hd2 with hmem | ⟨d, hd, _, hfd⟩
  · exact h d2 hmem hdone
  · exact absurd hdone (hf d d2 hfd)

theorem doneInvariant_finalize (w : World) (id content : String)
    (h : DoneInvariant w) :
    DoneInvariant (applySysEvent w (SysEvent.finalize id content)) := by
  simp only [applySysEvent]
  split
  · rename_i d0 hfind
    split
    · rename_i hst
      intro d2 hd2 hdone
      set chunks :=
        if d0.file_path.isSome then ChunkingService.chunk content else [] with hch
      have hpoint : 0 < chunks.length → ∃ i, (id, i) ∈
          w.index ++ upsert_chunks_points id chunks := by
        intro hlen
        refine ⟨0, List.mem_append_right _ ?_⟩
        unfold upsert_chunks_points
        rw [if_neg (by simpa using List.length_pos.mp hlen)]
        exact List.mem_map.mpr ⟨0, by simpa using hlen, rfl⟩
      have hlook : ∀ i2 : String,
          lookupProduced ((id, chunks.length) :: w.produced) i2
            = if id = i2 then some chunks.length
              else lookupProduced w.produced i2 := by
        intro i2
        by_cases hi : id = i2 <;> simp [lookupProduced, hi]
      rcases mem_updateById w.docs id _ d2 hd2 with hmem | ⟨d, _, hid, hfd⟩
      · obtain ⟨hfp, hprod⟩ := h d2 hmem hdone
        refine ⟨hfp, ?_⟩
        intro k hk hkpos
        rw [hlook d2.id] at hk
        by_cases hi : id = d2.id
        · rw [if_pos hi] at hk
          have hkl : k = chunks.length := by simpa using hk.symm
          obtain ⟨i, hmemi⟩ := hpoint (by omega)
          exact ⟨i, by rw [← hi]; exact hmemi⟩
        · rw [if_neg hi] at hk
          obtain ⟨i, hmemi⟩ := hprod k hk hkpos
          exact ⟨i, List.mem_append_left _ hmemi⟩
      · revert hfd
        cases hu : update_status_doc d DocumentStatus.DONE with
        | error e2 =>
          intro hfd
          simp at hfd
        | ok d3 =>
          intro hfd
          simp only [Option.some.injEq] at hfd
          have hshape := update_status_doc_ok_shape d _ d3 hu
          subst hfd
          subst hshape
          refine ⟨rfl, ?_⟩
          intro k hk hkpos
          rw [hlook] at hk
          simp only [clear_file_path_doc] at hk ⊢
          rw [if_pos hid.symm] at hk
          obtain ⟨i, hmemi⟩ := hpoint (by
            have hkl : k = chunks.length := by simpa using hk.symm
            omega)
          exact ⟨i, by rw [hid]; exact hmemi⟩
    · exact h
  · exact h

/-- One application-level event preserves the DONE invariant. -/
theorem doneInvariant_step (w : World) (e : SysEvent) (h : DoneInvariant w) :
    DoneInvariant (applySysEvent w e) := by
  cases e with
  | createDoc id source =>
    simp only [applySysEvent]
    split
    · intro d2 hd2 hdone
      rcases List.mem_append.mp hd2 with hmem | hnew
      · exact h d2 hmem hdone
      · have : d2 = create_document id source := by simpa using hnew
        rw [this] at hdone
        cases hdone
    · exact h
  | compensateFailed id =>
    simp only [applySysEvent]
    refine doneInvariant_updateById w id _ h ?_
    intro d d2 hfd
    have := update_status_doc_ok_shape d _ d2 (toOption_eq_some _ _ hfd)
    rw [this]
    simp
  | upload id path =>
    simp only [applySysEvent]
    refine doneInvariant_updateById w id _ h ?_
    intro d d2 hfd
    by_cases hg : d.status = DocumentStatus.PROCESSING ∨ d.status = DocumentStatus.DONE
    · rw [if_pos hg] at hfd
      cases hfd
    · rw [if_neg hg] at hfd
      have hd2 : d2 = update_file_path_doc d path := by simpa using hfd.symm
      rw [hd2]
      simp only [update_file_path_doc]
      intro hc
      exact hg (Or.inr hc)
  | claim id =>
    simp only [applySysEvent]
    refine doneInvariant_updateById w id _ h ?_
    intro d d2 hfd
    by_cases hg : d.status = DocumentStatus.DONE ∨ d.status = DocumentStatus.PROCESSING
    · rw [if_pos hg] at hfd
      cases hfd
    · rw [if_neg hg] at hfd
      have := update_status_doc_ok_shape d _ d2 (toOption_eq_some _ _ hfd)
      rw [this]
      simp
  | finalize id content => exact doneInvariant_finalize w id content h
  | markFailed id =>
    simp only [applySysEvent]
    refine doneInvariant_updateById w id _ h ?_
    intro d d2 hfd
    have := update_status_doc_ok_shape _ _ d2 (toOption_eq_some _ _ hfd)
    rw [this]
    simp
  | retry id =>
    simp only [applySysEvent]
    refine doneInvariant_updateById w id _ h ?_
    intro d d2 hfd
    have := retry_document_doc_ok_shape d d2 (toOption_eq_some _ _ hfd)
    rw [this]
    simp

theorem doneInvariant_runSysEvents (es : List SysEvent) (w : World)
    (h : DoneInvariant w) : DoneInvariant (runSysEvents w es) := by
  induction es generalizing w with
  | nil => exact h
  | cons e es ih => exact ih (applySysEvent w e) (doneInvariant_step w e h)

/-- Every finalize path's trace keeps the first event of its prefix. -/
theorem processFinalize_trace_head (doc2 : Document) (hasFile : Bool)
    (env : ProcEnv) (t : List ProcEvent) (ev : ProcEvent) :
    (processFinalize doc2 hasFile env (ev :: t)).2.2.head? = some ev := by
  unfold processFinalize
  split
  · split <;> simp
  · simp

/-- Claim C3 counterexample: a FAILED document is neither rejected with
ProcessingConflict nor transitioned to PROCESSING: the claim transaction
raises InvalidStateTransition (the repository rejects FAILED→PROCESSING)
and the stored status stays FAILED. -/
theorem process_failed_doc_raises_invalid_transition :
    process (some { pendingDoc with status := DocumentStatus.FAILED }) happyEnv
      = (Except.error (ProcError.repoError
          (RepoError.invalidStateTransition DocumentStatus.FAILED
            DocumentStatus.PROCESSING)),
         some { pendingDoc with status := DocumentStatus.FAILED }, []) := by
  rfl

/-- Claim C3 (amended): process raises DocumentNotFound when the row is
absent and ProcessingConflict when its status is DONE or PROCESSING; a
PENDING document is transitioned to PROCESSING by the claim transaction,
which commits before any external work (the run's trace starts with the
claim commit); but a FAILED document is NOT transitioned: the claim
transaction raises InvalidStateTransition from the repository and leaves
the stored document unchanged. -/
theorem process_claim_phase (doc : Document) (env : ProcEnv) :
    (process none env = (Except.error ProcError.documentNotFound, none, []))
  ∧ ((doc.status = DocumentStatus.DONE ∨ doc.status = DocumentStatus.PROCESSING) →
      process (some doc) env
        = (Except.error (ProcError.processingConflict doc.status), some doc, []))
  ∧ (doc.status = DocumentStatus.PENDING →
      processClaim (some doc)
          = Except.ok ({ doc with status := DocumentStatus.PROCESSING }, doc.file_path)
        ∧ (process (some doc) env).2.2.head? = some ProcEvent.commitClaim)
  ∧ (doc.status = DocumentStatus.FAILED →
      process (some doc) env
        = (Except.error (ProcError.repoError
            (RepoError.invalidStateTransition DocumentStatus.FAILED
              DocumentStatus.PROCESSING)),
           some doc, [])) := by
  refine ⟨rfl, ?_, ?_, ?_⟩
  · intro h
    rcases h with h | h <;> simp [process, processClaim, h]
  · intro h
    have hclaim : processClaim (some doc)
        = Except.ok ({ doc with status := DocumentStatus.PROCESSING }, doc.file_path) := by
      simp [processClaim, h, update_status_doc]
    refine ⟨hclaim, ?_⟩
    cases hf : doc.file_path with
    | none =>
      simp only [process, hclaim, hf]
      exact processFinalize_trace_head _ _ _ _ _
    | some fp =>
      simp only [process, hclaim, hf]
      (repeat' split) <;>
        first
          | simp
          | exact processFinalize_trace_head _ _ _ _ _
  · intro h
    simp [process, processClaim, h, update_status_doc]

/-- Claim C3 witness: the claim transaction on a concrete PENDING row. -/
theorem process_claim_phase_witness :
    processClaim (some pendingDoc)
      = Except.ok ({ pendingDoc with status := DocumentStatus.PROCESSING }, none) :=
  ((process_claim_phase pendingDoc happyEnv).2.2.1 rfl).1

/-- Claim C4 counterexample: when the finalize transaction fails the
processor leaves the document PROCESSING, but the worker's process_job then
marks it FAILED — so after the worker's processing of that document the
stored status is FAILED, not PROCESSING as the claim states. -/
theorem worker_marks_failed_after_finalize_failure :
    ((process (some uploadedDoc) finalizeFailEnv).2.1
      = some { uploadedDoc with status := DocumentStatus.PROCESSING })
  ∧ ((process_job (some uploadedDoc) finalizeFailEnv).2
      = some { uploadedDoc with
          status := DocumentStatus.FAILED, file_path := none })
  ∧ ((process_job (some uploadedDoc) finalizeFailEnv).2.map Document.status
      ≠ some DocumentStatus.PROCESSING) := by
  refine ⟨by decide, by decide, by decide⟩

/-- Claim C4 (amended): if the finalize transaction fails,
processor.process raises and leaves the stored document in PROCESSING —
the sweeper-recovery situation the spec describes — but the worker's
process_job catches the failure and calls mark_failed, so after the
worker's processing of the document the stored status is FAILED (it stays
PROCESSING only when mark_failed itself also fails). -/
theorem finalize_failure_outcome (doc : Document) (env : ProcEnv)
    (hst : doc.status = DocumentStatus.PENDING)
    (hfin : env.finalizeCommitOk = false)
    (hread : env.readOk = true)
    (hembed : env.embedOk = true)
    (hupsert : env.upsertOk = true) :
    ((process (some doc) env).1 = Except.error ProcError.appError)
  ∧ ((process (some doc) env).2.1
      = some { doc with status := DocumentStatus.PROCESSING })
  ∧ ((process_job (some doc) env).2
      = some { doc with status := DocumentStatus.FAILED, file_path := none }) := by
  have hclaim : processClaim (some doc)
      = Except.ok ({ doc with status := DocumentStatus.PROCESSING }, doc.file_path) := by
    simp [processClaim, hst, update_status_doc]
  have h12 : ((process (some doc) env).1 = Except.error ProcError.appError)
      ∧ ((process (some doc) env).2.1
          = some { doc with status := DocumentStatus.PROCESSING }) := by
    cases hf : doc.file_path with
    | none => constructor <;> simp [process, hclaim, hf, processFinalize, hfin]
    | some fp =>
      constructor <;>
        simp [process, hclaim, hf, hread, hembed, hupsert,
          processFinalize, hfin] <;>
        split <;> simp
  refine ⟨h12.1, h12.2, ?_⟩
  obtain ⟨⟨r, store, tr⟩, hpp⟩ :
      ∃ p, process (some doc) env = p := ⟨process (some doc) env, rfl⟩
  obtain ⟨h1, h2⟩ := h12
  rw [hpp] at h1 h2
  simp only [] at h1 h2
  subst h1
  subst h2
  simp only [process_job, hpp]
  cases hf : doc.file_path <;>
    simp [mark_failed, update_status_doc, clear_file_path_doc, hf]

/-- Claim C4 witness: concrete PENDING document with a file, finalize
commit failing, every other collaborator succeeding. -/
theorem finalize_failure_outcome_witness :
    (process_job (some uploadedDoc) finalizeFailEnv).2
      = some { uploadedDoc with status := DocumentStatus.FAILED, file_path := none } :=
  (finalize_failure_outcome uploadedDoc finalizeFailEnv rfl rfl rfl rfl rfl).2.2

/-- Claim C7: ingest is idempotent per source — when a document with the
requested source already exists, ingest returns it unchanged, creates no
row, enqueues nothing and emits no events; a fresh source creates exactly
one row and enqueues it, with the creating commit ordered before the
enqueue in the trace; across all runs an enqueue event occurs only in the
fresh-source trace, after the commit. -/
theorem ingest_idempotent (docs : List Document) (b : Broker)
    (newId source : String) (enqueueOk : Bool) :
    (∀ existing, findBySource docs source = some existing →
      b.main.length < QUEUE_MAX_LENGTH →
      ingest docs b newId source enqueueOk = (Except.ok existing, docs, b, []))
  ∧ (findBySource docs source = none → b.main.length < QUEUE_MAX_LENGTH →
      enqueueOk = true →
      ingest docs b newId source enqueueOk
        = (Except.ok (create_document newId source),
           docs ++ [create_document newId source],
           enqueue b newId,
           [IngestEvent.commitCreate newId, IngestEvent.enqueueJob newId]))
  ∧ ((ingest docs b newId source enqueueOk).2.2.2 = []
      ∨ (ingest docs b newId source enqueueOk).2.2.2
          = [IngestEvent.commitCreate newId, IngestEvent.enqueueJob newId]
      ∨ (ingest docs b newId source enqueueOk).2.2.2
          = [IngestEvent.commitCreate newId, IngestEvent.commitMarkFailed newId])
  ∧ (IngestEvent.enqueueJob newId ∈ (ingest docs b newId source enqueueOk).2.2.2 →
      findBySource docs source = none
      ∧ (ingest docs b newId source enqueueOk).2.2.2
          = [IngestEvent.commitCreate newId, IngestEvent.enqueueJob newId]) := by
  refine ⟨?_, ?_, ?_, ?_⟩
  · intro existing hfind hlen
    simp [ingest, Nat.not_le.mpr hlen, hfind]
  · intro hfind hlen henq
    simp [ingest, Nat.not_le.mpr hlen, hfind, henq]
  · by_cases hlen : QUEUE_MAX_LENGTH ≤ b.main.length
    · simp [ingest, hlen]
    · cases hfind : findBySource docs source with
      | some existing => simp [ingest, hlen, hfind]
      | none =>
        cases enqueueOk <;> simp [ingest, hlen, hfind]
  · intro hmem
    by_cases hlen : QUEUE_MAX_LENGTH ≤ b.main.length
    · simp [ingest, hlen] at hmem
    · cases hfind : findBySource docs source with
      | some existing => simp [ingest, hlen, hfind] at hmem
      | none =>
        cases henq : enqueueOk with
        | true => exact ⟨rfl, by simp [ingest, hlen, hfind]⟩
        | false => simp [ingest, hlen, hfind, henq] at hmem

/-- Claim C7 witness: a duplicate-source run returns the existing document
with no store, broker or trace change. -/
theorem ingest_idempotent_witness :
    ingest [pendingDoc] Broker.empty "d2" "s1" true
      = (Except.ok pendingDoc, [pendingDoc], Broker.empty, []) :=
  (ingest_idempotent [pendingDoc] Broker.empty "d2" "s1" true).1 pendingDoc
    (by decide) (by decide)

/-- Claim C10: on a dequeued job whose per-document retry counter is at or
above MAX_RETRIES, the worker pushes the bare document id onto the DLQ list
and then calls processor.mark_failed with a reason keyword argument that
mark_failed does not accept — a TypeError — so, contrary to the claim and
to the code's own comments, the document is never transitioned to FAILED
and the in-flight entry is never acknowledged. -/
theorem worker_dlq_path_type_error (store : Option Document) (b : Broker)
    (k : Nat) (document_id : String) (raw : RawEntry) (env : ProcEnv) :
    (callAccepted mark_failed_param_names worker_mark_failed_kwargs = false)
  ∧ ((workerProcess (mkWorkerState store b (MAX_RETRIES + k)) document_id raw env).1
      = Except.error WorkerError.typeError)
  ∧ ((workerProcess (mkWorkerState store b (MAX_RETRIES + k)) document_id raw
        env).2.broker.dead_letter
      = lpush b.dead_letter (DlqItem.bareId document_id))
  ∧ ((workerProcess (mkWorkerState store b (MAX_RETRIES + k)) document_id raw
        env).2.store = store)
  ∧ ((workerProcess (mkWorkerState store b (MAX_RETRIES + k)) document_id raw
        env).2.broker.processing = b.processing) := by
  refine ⟨rfl, ?_, ?_, ?_, ?_⟩ <;>
    simp [workerProcess, mkWorkerState, callAccepted, mark_failed_param_names,
      worker_mark_failed_kwargs, Nat.le_add_right]

/-- Claim C8: every reachable store and index state satisfies the DONE
invariant: a DONE document has an empty file_path, and when the run that
completed it produced at least one chunk the index holds at least one
point for its id — no document reaches DONE without its chunks' upsert. -/
theorem done_documents_indexed (es : List SysEvent) :
    DoneInvariant (runSysEvents initialWorld es) := by
  refine doneInvariant_runSysEvents es initialWorld ?_
  intro d hd
  simp [initialWorld] at hd

/-- Claim C8 witness: the happy-path run ingest → upload → claim →
finalize of document d1 with content "hello" (one chunk). -/
theorem done_documents_indexed_witness :
    ({ id := "d1", source := "s1", status := DocumentStatus.DONE,
       retry_count := 0, file_path := none } : Document).file_path = none
  ∧ ∃ i, (("d1", i) : String × Nat) ∈ (runSysEvents initialWorld demoEvents).index :=
  ⟨(done_documents_indexed demoEvents
      { id := "d1", source := "s1", status := DocumentStatus.DONE,
        retry_count := 0, file_path := none } (by decide) rfl).1,
   (done_documents_indexed demoEvents
      { id := "d1", source := "s1", status := DocumentStatus.DONE,
        retry_count := 0, file_path := none } (by decide) rfl).2 1
     (by decide) (by decide)⟩

end AiDataPlatform
